import Mathlib

/-!
Verification development of zed-pcl, `src/main.cpp`.

The program streams depth-camera frames into a shared buffer (thread `run`),
and its main loop converts the buffer into a coloured point cloud, filters it
on the x axis and hands it to a viewer.

Conventions of the embedding:

* a C++ `float` is represented by its 32-bit pattern, a `Nat` below `2^32`;
  byte `i` of a pattern in memory order is `(w / 256^i) % 256` (little-endian,
  as on the x86-64 and ARM targets of the camera SDK);
* the frame buffer `p_data_cloud` is a `List Nat` of patterns, a read outside
  of it (undefined behaviour in C++) makes the model return `none`;
* the point cloud `p_pcl_point_cloud->points` is a `List PointXYZRGB`;
* calls to the viewer and to `sleep_ms` are recorded in a trace of events.
-/

namespace ZedPcl

/-! ## Colour conversion (`convertColor`, main.cpp 220-225) -/

/-- Byte `i` (memory order, little-endian) of the pattern `w`:
`color_uchar[i]` in `convertColor`. -/
def color_uchar (w i : Nat) : Nat := (w / 256 ^ i) % 256

/-- The function `convertColor` of main.cpp on bit patterns: `color_uint` is
the pattern of `colorIn`, `color_uchar[i]` its bytes, and the result is
`(uint32_t) color_uchar[0] << 16 | (uint32_t) color_uchar[1] << 8
| (uint32_t) color_uchar[2]`, a `uint32_t` (hence the reduction modulo `2^32`). -/
def convertColor (colorIn : Nat) : Nat :=
  let color_uint := colorIn
  (((color_uchar color_uint 0) <<< 16) ||| ((color_uchar color_uint 1) <<< 8)
    ||| (color_uchar color_uint 2)) % 2 ^ 32

/-! ## Floats, points and the frame buffer -/

/-- A point of the cloud, `pcl::PointXYZRGB`, reduced to the four float
fields the program assigns; each holds a 32-bit float pattern. -/
structure PointXYZRGB where
  x : Nat
  y : Nat
  z : Nat
  rgb : Nat
deriving DecidableEq

/-- Modelled from the spec: `isValidMeasure` belongs to the camera SDK, not to
this repository; the spec calls a sample invalid when its first coordinate is
non-finite. A float pattern is finite exactly when its exponent field
(bits 23..30) is not all ones. -/
def isValidMeasure (X : Nat) : Bool := (X / 2 ^ 23) % 256 != 255

/-- Exact value of a finite float pattern (IEEE 754 binary32): sign bit 31,
exponent field `e` in bits 23..30, fraction `f` in bits 0..22; the value is
`f * 2^-149` for `e = 0` and `(2^23 + f) * 2^(e - 150)` otherwise. Used only to
compare a coordinate with the filter bounds. -/
def f32Value (w : Nat) : ℚ :=
  let f : Nat := w % 2 ^ 23
  let e : Nat := (w / 2 ^ 23) % 256
  let mag : ℚ := if e = 0 then (f : ℚ) / 2 ^ 149 else ((2 ^ 23 + f : Nat) : ℚ) * 2 ^ (e - 1) / 2 ^ 149
  if (w / 2 ^ 31) % 2 = 1 then -mag else mag

/-- The resolution `cloud_res = sl::Resolution(640, 360)` (main.cpp 101): its
`area()` is the number of samples of the frame buffer and the size the cloud
is allocated with (main.cpp 105). -/
def cloud_res_area : Nat := 640 * 360

/-! ## The conversion pass (main.cpp 125-140) -/

/-- The loop `for (auto &it : p_pcl_point_cloud->points)` of main.cpp 129-140,
started at buffer position `index`. Each point is overwritten from the four
floats at `index .. index + 3`; `index` advances by 4. A sample whose `X` is
not a valid measure zeroes the point (`it.x = it.y = it.z = it.rgb = 0`) and
the other three floats are not read. A read outside the buffer gives `none`.
The C++ `index` is an `int`; the clouds of this program have at most
`640 * 360` points, so it stays below `4 * 640 * 360 + 4`, far from `2^31`,
and is kept as a `Nat`. -/
def conversionLoop (p_data_cloud : List Nat) : List PointXYZRGB → Nat → Option (List PointXYZRGB)
  | [], _ => some []
  | it :: rest, index =>
    match p_data_cloud[index]? with
    | none => none
    | some X =>
      let converted : Option PointXYZRGB :=
        if !isValidMeasure X then
          some { it with x := 0, y := 0, z := 0, rgb := 0 }
        else
          match p_data_cloud[index + 1]?, p_data_cloud[index + 2]?, p_data_cloud[index + 3]? with
          | some Y, some Z, some C => some { it with x := X, y := Y, z := Z, rgb := convertColor C }
          | _, _, _ => none
      match converted with
      | none => none
      | some it1 =>
        match conversionLoop p_data_cloud rest (index + 4) with
        | none => none
        | some rest1 => some (it1 :: rest1)

/-- The conversion pass: `int index = 0;` followed by the loop. -/
def conversionPass (p_data_cloud : List Nat) (points : List PointXYZRGB) : Option (List PointXYZRGB) :=
  conversionLoop p_data_cloud points 0

/-- The point the spec describes for the sample stored at buffer positions
`k .. k + 3`: zeroed when `X` is not finite, otherwise the three coordinates
and the converted colour. Used to state what the conversion loop computes. -/
def samplePoint (buf : List Nat) (k : Nat) : PointXYZRGB :=
  if isValidMeasure (buf.getD k 0) then
    { x := buf.getD k 0, y := buf.getD (k + 1) 0, z := buf.getD (k + 2) 0,
      rgb := convertColor (buf.getD (k + 3) 0) }
  else
    { x := 0, y := 0, z := 0, rgb := 0 }

/-- A buffer of two samples used to exercise the conversion pass: the first
is valid (1.0, 2.0, 3.0 and the colour `0x00112233`), the second has an
infinite `X`. -/
def demoBuffer : List Nat :=
  [0x3F800000, 0x40000000, 0x40400000, 0x00112233, 0x7F800000, 5, 6, 7]

/-- A cloud of two points with arbitrary previous content. -/
def demoCloud : List PointXYZRGB :=
  [{ x := 9, y := 9, z := 9, rgb := 9 }, { x := 9, y := 9, z := 9, rgb := 9 }]

/-! ## The pass-through filter (main.cpp 113-115, 143-144) -/

/-- Modelled from the spec: the range filter is `pcl::PassThrough`, library
code outside this repository, configured with `setFilterFieldName("x")` and
`setFilterLimits(x_min, x_max)`; the spec says it "retains only points whose
value on one axis falls within a given range". Order is kept. -/
def passThroughX (x_min x_max : ℚ) (cloud : List PointXYZRGB) : List PointXYZRGB :=
  cloud.filter (fun p => decide (x_min ≤ f32Value p.x ∧ f32Value p.x ≤ x_max))

/-! ## The main loop (main.cpp 121-152) -/

/-- Calls whose effect lies outside the program state: the two viewer calls
of the locked branch and the sleep of the other branch. -/
inductive Event where
  | updatePointCloud (cloud : List PointXYZRGB)
  | spinOnce (ms : Nat)
  | sleep_ms (ms : Nat)
deriving DecidableEq

/-- State of the main loop: the cloud `p_pcl_point_cloud->points` and the
trace of external calls made so far. -/
structure LoopState where
  points : List PointXYZRGB
  trace : List Event
deriving DecidableEq

/-- One iteration of the loop body (main.cpp 124-151). `locked` is the outcome
of `mutex_input.try_lock()`: `some buf` when the lock was acquired, `buf` being
the content of `data_cloud` at that moment, `none` when it was not. `pass` is
the configured filter object, applied with the cloud as input and output. -/
def loopBody (pass : List PointXYZRGB → List PointXYZRGB) (locked : Option (List Nat))
    (s : LoopState) : Option LoopState :=
  match locked with
  | some p_data_cloud =>
    match conversionPass p_data_cloud s.points with
    | none => none
    | some converted =>
      let filtered := pass converted
      some { points := filtered,
             trace := s.trace ++ [Event.updatePointCloud filtered, Event.spinOnce 10] }
  | none => some { s with trace := s.trace ++ [Event.sleep_ms 1] }

/-- The loop `while (!viewer->wasStopped())`: one entry of `locks` per
iteration run before the viewer is stopped. -/
def mainLoop (pass : List PointXYZRGB → List PointXYZRGB) :
    List (Option (List Nat)) → LoopState → Option LoopState
  | [], s => some s
  | locked :: more, s =>
    match loopBody pass locked s with
    | none => none
    | some s1 => mainLoop pass more s1

/-- The clouds seen after each of a run of locked iterations (every
`try_lock` succeeds), `none` if some iteration reads outside the buffer. -/
def lockedRun (pass : List PointXYZRGB → List PointXYZRGB) :
    List (List Nat) → List PointXYZRGB → Option (List (List PointXYZRGB))
  | [], _ => some []
  | buf :: more, points =>
    match loopBody pass (some buf) { points := points, trace := [] } with
    | none => none
    | some s1 =>
      match lockedRun pass more s1.points with
      | none => none
      | some later => some (s1.points :: later)

/-! ## The entry point (main.cpp 66-161) -/

/-- Input selected by the command line (`init_params.input`, or the live
camera at `HD720`, 30 fps). -/
inductive CameraInput where
  | live
  | svoFile (path : String)
deriving DecidableEq

/-- What the argument handling of main.cpp 73-88 sets up. -/
structure Setup where
  input : CameraInput
  x_min : ℚ
  x_max : ℚ

/-- Lines 73-88 of main.cpp; `atof` is the C library function. -/
def parseArgs (atof : String → ℚ) (argc : Int) (argv : List String) : Setup :=
  let x_min : ℚ := -300
  let x_max : ℚ := 300
  if argc = 2 then
    { input := CameraInput.svoFile (argv.getD 1 ""), x_min := x_min, x_max := x_max }
  else if argc = 4 then
    { input := CameraInput.svoFile (argv.getD 1 ""),
      x_min := atof (argv.getD 2 ""), x_max := atof (argv.getD 3 "") }
  else
    { input := CameraInput.live, x_min := x_min, x_max := x_max }

/-- What a run of the program amounts to: its exit code, whether `zed.open`
was called, and the trace of the main loop. -/
structure Outcome where
  exitCode : Int
  cameraOpened : Bool
  trace : List Event
deriving DecidableEq

/-- The function `main`. Environment: `atof`; `openOk`, whether `zed.open`
returns `SUCCESS`; `pointInit`, the point `points.resize` fills the cloud
with; `locks`, the `try_lock` outcomes of the iterations run until the viewer
is stopped. The result is `none` when a buffer read is out of bounds. -/
def main (atof : String → ℚ) (openOk : Bool) (pointInit : PointXYZRGB)
    (locks : List (Option (List Nat))) (argc : Int) (argv : List String) : Option Outcome :=
  if argc > 4 then
    some { exitCode := -1, cameraOpened := false, trace := [] }
  else
    let setup := parseArgs atof argc argv
    if !openOk then
      some { exitCode := 1, cameraOpened := true, trace := [] }
    else
      let points := List.replicate cloud_res_area pointInit
      match mainLoop (passThroughX setup.x_min setup.x_max) locks { points := points, trace := [] } with
      | none => none
      | some s => some { exitCode := 0, cameraOpened := true, trace := s.trace }

/-! ## The two threads and the mutex (main.cpp 121-152, 166-200)

Interleaving model of the main thread, from `startZED` on, and of the
acquisition thread `run`. One step is one statement of the source; the program
counters below name the statement about to be executed. `std::mutex` is
modelled by its owner: `lock` can only be taken when the mutex is free (a
thread blocked on it has no step), `try_lock` acquires it when free and may
fail. -/

/-- The two threads. -/
inductive Tid where
  | mainThread
  | runThread
deriving DecidableEq

/-- Program counter of the main thread. -/
inductive MainPc where
  | initFlags    -- 168-169: stop_signal = false; has_data = false
  | spawn        -- 170: zed_callback = std::thread(run)
  | waitData     -- 173-174: while (!has_data) sleep_ms(1)
  | loopHead     -- 121: while (!viewer->wasStopped())
  | tryLock      -- 124: mutex_input.try_lock()
  | convert      -- 125-140: data_cloud.getPtr and the conversion loop
  | filter       -- 143-144: pass.filter
  | unlock       -- 147: mutex_input.unlock()
  | render       -- 148-149: updatePointCloud, spinOnce
  | sleepMs      -- 151: sleep_ms(1)
  | closeViewer  -- 155: viewer->close()
  | setStop      -- 197: stop_signal = true
  | join         -- 198: zed_callback.join()
  | closeCamera  -- 199: zed.close()
  | finished     -- 160: return 0
deriving DecidableEq

/-- Program counter of the acquisition thread (function `run`). -/
inductive RunPc where
  | notStarted
  | loopHead     -- 181: while (!stop_signal)
  | grab         -- 182: zed.grab(...)
  | lock         -- 183: mutex_input.lock()
  | retrieve     -- 184: zed.retrieveMeasure(data_cloud, ...)
  | unlock       -- 185: mutex_input.unlock()
  | setHasData   -- 186: has_data = true
  | sleepMs      -- 188: sleep_ms(1)
  | finished
deriving DecidableEq

/-- Kind of access to the shared buffer `data_cloud`. -/
inductive Access where
  | read
  | write
deriving DecidableEq

/-- The access to `data_cloud` made by the statement at a main-thread program
counter: the only statements of `main` that name `data_cloud` are line 125
and, through `p_data_cloud`, the conversion loop, which reads it. -/
def mainAccess : MainPc → Option Access
  | MainPc.convert => some Access.read
  | _ => none

/-- The access to `data_cloud` made by the statement at a program counter of
`run`: `retrieveMeasure(data_cloud, ...)` on line 184 writes it. -/
def runAccess : RunPc → Option Access
  | RunPc.retrieve => some Access.write
  | _ => none

/-- Shared state and the two program counters. -/
structure Sys where
  mutex_input : Option Tid
  stop_signal : Bool
  has_data : Bool
  mainPc : MainPc
  runPc : RunPc
deriving DecidableEq

/-- State on entry of `startZED`: the mutex is free, the acquisition thread is
not started, the two global flags hold their static initial value. -/
def Sys.init : Sys :=
  { mutex_input := none, stop_signal := false, has_data := false,
    mainPc := MainPc.initFlags, runPc := RunPc.notStarted }

/-- Invariant of the interleaving model: the mutex is owned by `run` exactly
between its `lock` and its `unlock`, by the main thread exactly between a
successful `try_lock` and its `unlock`, and `run` is not started before the
main thread has created it. -/
def LockInv (s : Sys) : Prop :=
  (s.mutex_input = some Tid.runThread ↔ (s.runPc = RunPc.retrieve ∨ s.runPc = RunPc.unlock)) ∧
  (s.mutex_input = some Tid.mainThread ↔
    (s.mainPc = MainPc.convert ∨ s.mainPc = MainPc.filter ∨ s.mainPc = MainPc.unlock)) ∧
  ((s.mainPc = MainPc.initFlags ∨ s.mainPc = MainPc.spawn) → s.runPc = RunPc.notStarted)

/-- One step of the main thread; `c` resolves what the environment decides
(`wasStopped()` at the loop head, success of `try_lock` on a free mutex).
`none`: the thread cannot step (blocked in `join`, or finished). -/
def stepMain (s : Sys) (c : Bool) : Option Sys :=
  match s.mainPc with
  | MainPc.initFlags => some { s with stop_signal := false, has_data := false, mainPc := MainPc.spawn }
  | MainPc.spawn => some { s with runPc := RunPc.loopHead, mainPc := MainPc.waitData }
  | MainPc.waitData => some (if s.has_data then { s with mainPc := MainPc.loopHead } else s)
  | MainPc.loopHead => some { s with mainPc := if c then MainPc.closeViewer else MainPc.tryLock }
  | MainPc.tryLock =>
    if s.mutex_input = none ∧ c = true then
      some { s with mutex_input := some Tid.mainThread, mainPc := MainPc.convert }
    else
      some { s with mainPc := MainPc.sleepMs }
  | MainPc.convert => some { s with mainPc := MainPc.filter }
  | MainPc.filter => some { s with mainPc := MainPc.unlock }
  | MainPc.unlock => some { s with mutex_input := none, mainPc := MainPc.render }
  | MainPc.render => some { s with mainPc := MainPc.loopHead }
  | MainPc.sleepMs => some { s with mainPc := MainPc.loopHead }
  | MainPc.closeViewer => some { s with mainPc := MainPc.setStop }
  | MainPc.setStop => some { s with stop_signal := true, mainPc := MainPc.join }
  | MainPc.join => if s.runPc = RunPc.finished then some { s with mainPc := MainPc.closeCamera } else none
  | MainPc.closeCamera => some { s with mainPc := MainPc.finished }
  | MainPc.finished => none

/-- One step of the acquisition thread; `c` is whether `zed.grab` succeeds.
`none`: the thread cannot step (not started, blocked in `lock`, finished). -/
def stepRun (s : Sys) (c : Bool) : Option Sys :=
  match s.runPc with
  | RunPc.notStarted => none
  | RunPc.loopHead => some { s with runPc := if s.stop_signal then RunPc.finished else RunPc.grab }
  | RunPc.grab => some { s with runPc := if c then RunPc.lock else RunPc.sleepMs }
  | RunPc.lock =>
    if s.mutex_input = none then
      some { s with mutex_input := some Tid.runThread, runPc := RunPc.retrieve }
    else none
  | RunPc.retrieve => some { s with runPc := RunPc.unlock }
  | RunPc.unlock => some { s with mutex_input := none, runPc := RunPc.setHasData }
  | RunPc.setHasData => some { s with has_data := true, runPc := RunPc.loopHead }
  | RunPc.sleepMs => some { s with runPc := RunPc.loopHead }
  | RunPc.finished => none

/-- One scheduling decision: thread `t` is offered a step with choice `c`; a
thread that cannot step leaves the state as it is. -/
def sched (s : Sys) (tc : Tid × Bool) : Sys :=
  match tc.1 with
  | Tid.mainThread => (stepMain s tc.2).getD s
  | Tid.runThread => (stepRun s tc.2).getD s

/-- The state reached from `s` under an interleaving. -/
def exec (s : Sys) (interleaving : List (Tid × Bool)) : Sys :=
  interleaving.foldl sched s

/-! ### Helper lemmas on `convertColor` -/

theorem pack_eq_add (a b c : Nat) (hb : b < 256) (hc : c < 256) :
    ((a <<< 16) ||| (b <<< 8) ||| c) = a * 65536 + b * 256 + c := by
  have h1 : (a <<< 16) ||| (b <<< 8) = a * 65536 + b * 256 := by
    have hlt : b * 2 ^ 8 < 2 ^ 16 := by omega
    have h := Nat.mul_add_lt_is_or hlt a
    rw [Nat.shiftLeft_eq, Nat.shiftLeft_eq, Nat.mul_comm a (2 ^ 16), ← h]
    norm_num
  rw [h1]
  have hlt : c < 2 ^ 8 := by omega
  have h := Nat.mul_add_lt_is_or hlt (a * 256 + b)
  have e : a * 65536 + b * 256 = 2 ^ 8 * (a * 256 + b) := by ring
  rw [e, ← h]

theorem convertColor_eq (w : Nat) :
    convertColor w = (w % 256) * 65536 + ((w / 256) % 256) * 256 + (w / 65536) % 256 := by
  unfold convertColor color_uchar
  simp only []
  rw [pack_eq_add _ _ _ (Nat.mod_lt _ (by norm_num)) (Nat.mod_lt _ (by norm_num))]
  norm_num
  omega

theorem convertColor_demo : convertColor 0x11223344 = 0x443322 := by decide

theorem color_uchar_zero (w : Nat) : color_uchar w 0 = w % 256 := by
  simp [color_uchar]

theorem color_uchar_one (w : Nat) : color_uchar w 1 = (w / 256) % 256 := by
  simp [color_uchar]

theorem color_uchar_two (w : Nat) : color_uchar w 2 = (w / 65536) % 256 := by
  simp [color_uchar]

theorem color_uchar_three (w : Nat) : color_uchar w 3 = (w / 16777216) % 256 := by
  simp [color_uchar]

theorem bytes_of_pack (a b c : Nat) (ha : a < 256) (hb : b < 256) (hc : c < 256) :
    (a * 65536 + b * 256 + c) % 256 = c ∧ ((a * 65536 + b * 256 + c) / 256) % 256 = b ∧
    ((a * 65536 + b * 256 + c) / 65536) % 256 = a ∧
    ((a * 65536 + b * 256 + c) / 16777216) % 256 = 0 := by
  refine ⟨?_, ?_, ?_, ?_⟩ <;> omega

theorem low24_bytes (w : Nat) :
    w % 16777216 = ((w / 65536) % 256) * 65536 + ((w / 256) % 256) * 256 + w % 256 := by
  omega

theorem convertColor_bytes (w : Nat) :
    convertColor w % 256 = (w / 65536) % 256 ∧ (convertColor w / 256) % 256 = (w / 256) % 256 ∧
    (convertColor w / 65536) % 256 = w % 256 ∧ (convertColor w / 16777216) % 256 = 0 := by
  rw [convertColor_eq]
  exact bytes_of_pack _ _ _ (Nat.mod_lt _ (by norm_num)) (Nat.mod_lt _ (by norm_num))
    (Nat.mod_lt _ (by norm_num))

theorem convertColor_twice (w : Nat) : convertColor (convertColor w) = w % 16777216 := by
  obtain ⟨h0, h1, h2, _⟩ := convertColor_bytes w
  rw [convertColor_eq (convertColor w), h0, h1, h2, low24_bytes]

/-! ## Colour conversion: the claims -/

/-- Claim C1: for every input pattern `w` (in particular every 32-bit one), a second
application of `convertColor` gives the same pattern as the first exactly when
byte 0 of `w` equals byte 2 of `w`. -/
theorem convertColor_idempotent_iff (w : Nat) :
    convertColor (convertColor w) = convertColor w ↔ color_uchar w 0 = color_uchar w 2 := by
  rw [convertColor_twice, low24_bytes, convertColor_eq, color_uchar_zero, color_uchar_two]
  have h0 : w % 256 < 256 := Nat.mod_lt _ (by norm_num)
  have h2 : w / 65536 % 256 < 256 := Nat.mod_lt _ (by norm_num)
  generalize w % 256 = b0 at *
  generalize w / 65536 % 256 = b2 at *
  generalize w / 256 % 256 = b1 at *
  omega

/-- Claim C2: for every input pattern `w` with bytes `b0 b1 b2 b3` in memory order,
the pattern returned by `convertColor` has byte 0 equal to `b2`, byte 1 equal
to `b1` and byte 2 equal to `b0`; its value, which lies in the low 24 bits, is
`b0 * 65536 + b1 * 256 + b2`. -/
theorem convertColor_reorders (w : Nat) :
    color_uchar (convertColor w) 0 = color_uchar w 2 ∧
    color_uchar (convertColor w) 1 = color_uchar w 1 ∧
    color_uchar (convertColor w) 2 = color_uchar w 0 ∧
    convertColor w = color_uchar w 0 * 65536 + color_uchar w 1 * 256 + color_uchar w 2 ∧
    convertColor w % 2 ^ 24 = color_uchar w 0 * 65536 + color_uchar w 1 * 256 + color_uchar w 2 := by
  obtain ⟨h0, h1, h2, _⟩ := convertColor_bytes w
  simp only [color_uchar_zero, color_uchar_one, color_uchar_two]
  refine ⟨h0, h1, h2, convertColor_eq w, ?_⟩
  rw [convertColor_eq]
  have h0 : w % 256 < 256 := Nat.mod_lt _ (by norm_num)
  have h1 : w / 256 % 256 < 256 := Nat.mod_lt _ (by norm_num)
  have h2 : w / 65536 % 256 < 256 := Nat.mod_lt _ (by norm_num)
  generalize w % 256 = b0 at *
  generalize w / 65536 % 256 = b2 at *
  generalize w / 256 % 256 = b1 at *
  omega

/-- Claim C3: `convertColor` is not invertible: two distinct 32-bit patterns have the
same image, and for some 32-bit pattern a double application does not give the
pattern back. -/
theorem convertColor_not_injective :
    (∃ w1 w2 : Nat, w1 < 2 ^ 32 ∧ w2 < 2 ^ 32 ∧ w1 ≠ w2 ∧ convertColor w1 = convertColor w2) ∧
    (∃ w : Nat, w < 2 ^ 32 ∧ convertColor (convertColor w) ≠ w) := by
  refine ⟨⟨0, 0xFF000000, by norm_num, by norm_num, by norm_num, ?_⟩, ⟨0xFF000000, by norm_num, ?_⟩⟩
  · rw [convertColor_eq, convertColor_eq]
  · rw [convertColor_twice]; norm_num

/-- Claim C9: for every 32-bit pattern `w`, byte 3 of `convertColor w` is zero, a
double application gives `w` with its byte 3 cleared (`w mod 2^24`), and so it
gives `w` back exactly when byte 3 of `w` is zero. -/
theorem convertColor_clears_alpha (w : Nat) (hw : w < 2 ^ 32) :
    color_uchar (convertColor w) 3 = 0 ∧
    convertColor (convertColor w) = w % 2 ^ 24 ∧
    (convertColor (convertColor w) = w ↔ color_uchar w 3 = 0) := by
  obtain ⟨_, _, _, h3⟩ := convertColor_bytes w
  rw [convertColor_twice, color_uchar_three, color_uchar_three]
  refine ⟨h3, by norm_num, ?_⟩
  omega

/-- Witness of C9 at the pattern `0x11223344`. -/
theorem convertColor_clears_alpha_witness :
    (0x11223344 : Nat) < 2 ^ 32 ∧
    color_uchar (convertColor 0x11223344) 3 = 0 ∧
    convertColor (convertColor 0x11223344) = 0x11223344 % 2 ^ 24 ∧
    (convertColor (convertColor 0x11223344) = 0x11223344 ↔ color_uchar 0x11223344 3 = 0) :=
  ⟨by norm_num, convertColor_clears_alpha 0x11223344 (by norm_num)⟩

/-! ## The conversion pass -/

theorem conversionLoop_spec (buf : List Nat) :
    ∀ (points : List PointXYZRGB) (index : Nat), index + 4 * points.length ≤ buf.length →
      ∃ out, conversionLoop buf points index = some out ∧ out.length = points.length ∧
        ∀ i, i < points.length → out[i]? = some (samplePoint buf (index + 4 * i)) := by
  intro points
  induction points with
  | nil => intro index _; exact ⟨[], rfl, rfl, fun i hi => absurd hi (Nat.not_lt_zero i)⟩
  | cons it rest ih =>
    intro index h
    simp only [List.length_cons] at h
    obtain ⟨out, hout, hlen, hget⟩ := ih (index + 4) (by omega)
    have h0 : buf[index]? = some (buf.getD index 0) := by
      rw [List.getD_eq_getElem?_getD, List.getElem?_eq_getElem (by omega)]; rfl
    have h1 : buf[index + 1]? = some (buf.getD (index + 1) 0) := by
      rw [List.getD_eq_getElem?_getD, List.getElem?_eq_getElem (by omega)]; rfl
    have h2 : buf[index + 2]? = some (buf.getD (index + 2) 0) := by
      rw [List.getD_eq_getElem?_getD, List.getElem?_eq_getElem (by omega)]; rfl
    have h3 : buf[index + 3]? = some (buf.getD (index + 3) 0) := by
      rw [List.getD_eq_getElem?_getD, List.getElem?_eq_getElem (by omega)]; rfl
    refine ⟨samplePoint buf index :: out, ?_, by simp [hlen], ?_⟩
    · unfold conversionLoop
      rw [h0]
      simp only [h1, h2, h3, hout, samplePoint]
      cases hv : isValidMeasure (buf.getD index 0) <;> simp
    · intro i hi
      cases i with
      | zero => simp
      | succ j =>
        simp only [List.length_cons] at hi
        have := hget j (by omega)
        simp only [List.getElem?_cons_succ, this]
        congr 2
        omega

theorem conversionPass_total (buf : List Nat) (points : List PointXYZRGB)
    (h : 4 * points.length ≤ buf.length) :
    ∃ out, conversionPass buf points = some out ∧ out.length = points.length ∧
      ∀ i, i < points.length → out[i]? = some (samplePoint buf (4 * i)) := by
  obtain ⟨out, h1, h2, h3⟩ := conversionLoop_spec buf points 0 (by omega)
  refine ⟨out, h1, h2, fun i hi => ?_⟩
  have := h3 i hi
  rwa [Nat.zero_add] at this

/-- Claim C6: for every frame buffer and every cloud of `n` points with the buffer
at least `4 n` long, the conversion pass returns a cloud of `n` points whose
point `i` is all zero when `buffer[4i]` is not finite, and otherwise has
`x = buffer[4i]`, `y = buffer[4i+1]`, `z = buffer[4i+2]` and
`rgb = convertColor(buffer[4i+3])`. -/
theorem conversionPass_spec (buf : List Nat) (points : List PointXYZRGB)
    (h : 4 * points.length ≤ buf.length) :
    ∃ out, conversionPass buf points = some out ∧ out.length = points.length ∧
      ∀ i, i < points.length →
        (isValidMeasure (buf.getD (4 * i) 0) = false →
          out[i]? = some { x := 0, y := 0, z := 0, rgb := 0 }) ∧
        (isValidMeasure (buf.getD (4 * i) 0) = true →
          out[i]? = some { x := buf.getD (4 * i) 0, y := buf.getD (4 * i + 1) 0,
                           z := buf.getD (4 * i + 2) 0,
                           rgb := convertColor (buf.getD (4 * i + 3) 0) }) := by
  obtain ⟨out, h1, h2, h3⟩ := conversionPass_total buf points h
  refine ⟨out, h1, h2, fun i hi => ⟨fun hv => ?_, fun hv => ?_⟩⟩
  · rw [h3 i hi, samplePoint, hv]; rfl
  · rw [h3 i hi, samplePoint, hv]; rfl

/-- Witness of C6 on `demoBuffer` and `demoCloud`. -/
theorem conversionPass_spec_witness :
    4 * demoCloud.length ≤ demoBuffer.length ∧
    ∃ out, conversionPass demoBuffer demoCloud = some out ∧ out.length = demoCloud.length ∧
      ∀ i, i < demoCloud.length →
        (isValidMeasure (demoBuffer.getD (4 * i) 0) = false →
          out[i]? = some { x := 0, y := 0, z := 0, rgb := 0 }) ∧
        (isValidMeasure (demoBuffer.getD (4 * i) 0) = true →
          out[i]? = some { x := demoBuffer.getD (4 * i) 0, y := demoBuffer.getD (4 * i + 1) 0,
                           z := demoBuffer.getD (4 * i + 2) 0,
                           rgb := convertColor (demoBuffer.getD (4 * i + 3) 0) }) :=
  ⟨by decide, conversionPass_spec demoBuffer demoCloud (by decide)⟩

theorem conversionPass_demo :
    conversionPass demoBuffer demoCloud =
      some [{ x := 0x3F800000, y := 0x40000000, z := 0x40400000, rgb := 0x332211 },
            { x := 0, y := 0, z := 0, rgb := 0 }] := by
  decide

theorem conversionPass_short_buffer :
    conversionPass [0x3F800000, 0x40000000, 0x40400000] [{ x := 9, y := 9, z := 9, rgb := 9 }]
      = none := by
  decide

/-! ## The main loop -/

theorem passThroughX_sublist (x_min x_max : ℚ) (cloud : List PointXYZRGB) :
    (passThroughX x_min x_max cloud).Sublist cloud :=
  List.filter_sublist cloud

theorem loopBody_locked (pass : List PointXYZRGB → List PointXYZRGB) (buf : List Nat)
    (s : LoopState) (h : 4 * s.points.length ≤ buf.length) :
    ∃ conv, conversionPass buf s.points = some conv ∧ conv.length = s.points.length ∧
      loopBody pass (some buf) s = some
        { points := pass conv,
          trace := s.trace ++ [Event.updatePointCloud (pass conv), Event.spinOnce 10] } := by
  obtain ⟨conv, h1, h2, _⟩ := conversionPass_total buf s.points h
  exact ⟨conv, h1, h2, by simp [loopBody, h1]⟩

theorem samplePoint_zero_buffer (m k : Nat) :
    samplePoint (List.replicate m 0) k = { x := 0, y := 0, z := 0, rgb := 0 } := by
  have hg : ∀ j, (List.replicate m 0).getD j 0 = 0 := by
    intro j
    rw [List.getD_eq_getElem?_getD, List.getElem?_replicate]
    split <;> rfl
  have hc : convertColor 0 = 0 := by decide
  simp [samplePoint, hg, hc]

theorem conversionPass_zero_buffer (m : Nat) (points : List PointXYZRGB)
    (h : 4 * points.length ≤ m) :
    ∃ conv, conversionPass (List.replicate m 0) points = some conv ∧
      ∀ p ∈ conv, p = { x := 0, y := 0, z := 0, rgb := 0 } := by
  obtain ⟨conv, h1, h2, h3⟩ := conversionPass_total (List.replicate m 0) points (by simpa using h)
  refine ⟨conv, h1, fun p hp => ?_⟩
  obtain ⟨i, hi, rfl⟩ := List.getElem_of_mem hp
  have := h3 i (by omega)
  rw [List.getElem?_eq_getElem hi, samplePoint_zero_buffer] at this
  exact Option.some.inj this

theorem f32Value_zero : f32Value 0 = 0 := by
  simp [f32Value]

theorem loopBody_zero_buffer (n : Nat) :
    loopBody (passThroughX 1 2) (some (List.replicate (4 * n) 0))
        { points := List.replicate n { x := 0, y := 0, z := 0, rgb := 0 }, trace := [] }
      = some { points := [], trace := [Event.updatePointCloud [], Event.spinOnce 10] } := by
  obtain ⟨conv, h1, h2⟩ := conversionPass_zero_buffer (4 * n)
    (List.replicate n { x := 0, y := 0, z := 0, rgb := 0 }) (by simp)
  have hf : passThroughX 1 2 conv = [] := by
    rw [passThroughX, List.filter_eq_nil_iff]
    intro p hp
    rw [h2 p hp]
    simp [f32Value_zero]
  simp [loopBody, h1, hf]

/-- Claim C4, counterexample: with bounds `x_min = 1`, `x_max = 2` and a frame buffer
holding only zeros, one locked iteration from the full cloud of `640 * 360`
points leaves a cloud with no point at all. -/
theorem locked_iteration_loses_points :
    loopBody (passThroughX 1 2) (some (List.replicate (4 * cloud_res_area) 0))
        { points := List.replicate cloud_res_area { x := 0, y := 0, z := 0, rgb := 0 }, trace := [] }
      = some { points := [], trace := [Event.updatePointCloud [], Event.spinOnce 10] } ∧
    ([] : List PointXYZRGB).length ≠ cloud_res_area :=
  ⟨loopBody_zero_buffer cloud_res_area, by decide⟩

/-- Claim C4, amended: a locked iteration started with at most `640 * 360` points and
a buffer of `640 * 360` samples leaves in the cloud exactly the converted
points whose `x` lies in `[x_min, x_max]`, in order; the cloud has at most as
many points as before, and as many exactly when every converted point has its
`x` within the bounds. -/
theorem locked_iteration_keeps_in_range (x_min x_max : ℚ) (buf : List Nat) (s : LoopState)
    (hbuf : buf.length = 4 * cloud_res_area) (hs : s.points.length ≤ cloud_res_area) :
    ∃ conv s1, conversionPass buf s.points = some conv ∧ conv.length = s.points.length ∧
      loopBody (passThroughX x_min x_max) (some buf) s = some s1 ∧
      s1.points = conv.filter (fun p => decide (x_min ≤ f32Value p.x ∧ f32Value p.x ≤ x_max)) ∧
      s1.points.length ≤ s.points.length ∧ s1.points.length ≤ cloud_res_area ∧
      (s1.points.length = s.points.length ↔
        ∀ p ∈ conv, x_min ≤ f32Value p.x ∧ f32Value p.x ≤ x_max) := by
  obtain ⟨conv, h1, h2, h3⟩ := loopBody_locked (passThroughX x_min x_max) buf s (by omega)
  have hle : (passThroughX x_min x_max conv).length ≤ s.points.length := by
    rw [← h2]; exact List.length_filter_le _ _
  refine ⟨conv, _, h1, h2, h3, rfl, hle, by simp only; omega, ?_⟩
  simp only [passThroughX]
  rw [← h2, List.filter_length_eq_length]
  simp

/-- Witness of the amended C4: the full cloud, a buffer of zeros and the
default bounds `-300`, `300`. -/
theorem locked_iteration_keeps_in_range_witness :
    (List.replicate (4 * cloud_res_area) 0).length = 4 * cloud_res_area ∧
    (List.replicate cloud_res_area (PointXYZRGB.mk 0 0 0 0)).length ≤ cloud_res_area ∧
    ∃ conv s1,
      conversionPass (List.replicate (4 * cloud_res_area) 0)
        (List.replicate cloud_res_area (PointXYZRGB.mk 0 0 0 0)) = some conv ∧
      conv.length = (List.replicate cloud_res_area (PointXYZRGB.mk 0 0 0 0)).length ∧
      loopBody (passThroughX (-300) 300) (some (List.replicate (4 * cloud_res_area) 0))
        (LoopState.mk (List.replicate cloud_res_area (PointXYZRGB.mk 0 0 0 0)) []) = some s1 ∧
      s1.points = conv.filter (fun p => decide ((-300 : ℚ) ≤ f32Value p.x ∧ f32Value p.x ≤ 300)) ∧
      s1.points.length ≤ (List.replicate cloud_res_area (PointXYZRGB.mk 0 0 0 0)).length ∧
      s1.points.length ≤ cloud_res_area ∧
      (s1.points.length = (List.replicate cloud_res_area (PointXYZRGB.mk 0 0 0 0)).length ↔
        ∀ p ∈ conv, (-300 : ℚ) ≤ f32Value p.x ∧ f32Value p.x ≤ 300) :=
  ⟨List.length_replicate _ _, Nat.le_of_eq (List.length_replicate _ _),
    locked_iteration_keeps_in_range (-300) 300 (List.replicate (4 * cloud_res_area) 0)
      (LoopState.mk (List.replicate cloud_res_area (PointXYZRGB.mk 0 0 0 0)) [])
      (List.length_replicate _ _) (Nat.le_of_eq (List.length_replicate _ _))⟩

/-- Claim C7, counterexample: an iteration whose `try_lock` fails, run on a cloud of
one point, makes no `updatePointCloud` call: the renderer is not updated. -/
theorem failed_lock_does_not_render :
    loopBody (fun c => c) none { points := [{ x := 1, y := 2, z := 3, rgb := 4 }], trace := [] }
      = some { points := [{ x := 1, y := 2, z := 3, rgb := 4 }], trace := [Event.sleep_ms 1] } ∧
    Event.updatePointCloud [{ x := 1, y := 2, z := 3, rgb := 4 }] ∉ [Event.sleep_ms 1] := by
  decide

/-- Claim C7, amended: on every iteration in which the lock attempt fails the cloud
is left unchanged and the only external call of the iteration is
`sleep_ms(1)`: no viewer call (`updatePointCloud`, `spinOnce`) is made. -/
theorem failed_lock_only_sleeps (pass : List PointXYZRGB → List PointXYZRGB) (s : LoopState) :
    loopBody pass none s = some { points := s.points, trace := s.trace ++ [Event.sleep_ms 1] } ∧
    (∀ c, Event.updatePointCloud c ∉ [Event.sleep_ms 1]) ∧
    (∀ ms, Event.spinOnce ms ∉ [Event.sleep_ms 1]) := by
  refine ⟨rfl, ?_, ?_⟩ <;> intro c <;> simp

theorem lockedRun_bounded (pass : List PointXYZRGB → List PointXYZRGB)
    (hpass : ∀ c, (pass c).Sublist c) (m : Nat) :
    ∀ (bufs : List (List Nat)) (points : List PointXYZRGB),
      (∀ b ∈ bufs, b.length = 4 * m) → points.length ≤ m →
      ∃ clouds, lockedRun pass bufs points = some clouds ∧ clouds.length = bufs.length ∧
        List.Chain (fun before after => after.length ≤ before.length) points clouds ∧
        ∀ c ∈ clouds, c.length ≤ m := by
  intro bufs
  induction bufs with
  | nil => intro points _ _; exact ⟨[], rfl, rfl, List.Chain.nil, by simp⟩
  | cons buf more ih =>
    intro points hb hp
    have hbuf : buf.length = 4 * m := hb buf (List.mem_cons_self _ _)
    obtain ⟨conv, _, h2, h3⟩ := loopBody_locked pass buf { points := points, trace := [] }
      (by simp only; omega)
    have hle : (pass conv).length ≤ points.length := by
      have := (hpass conv).length_le
      simp only at h2
      omega
    obtain ⟨later, hl1, hl2, hl3, hl4⟩ := ih (pass conv)
      (fun b hb1 => hb b (List.mem_cons_of_mem _ hb1)) (by omega)
    refine ⟨pass conv :: later, ?_, by simp [hl2], List.Chain.cons hle hl3, ?_⟩
    · simp [lockedRun, h3, hl1]
    · intro c hc
      rcases List.mem_cons.mp hc with rfl | hc1
      · omega
      · exact hl4 c hc1

theorem mainLoop_total (pass : List PointXYZRGB → List PointXYZRGB)
    (hpass : ∀ c, (pass c).Sublist c) (m : Nat) :
    ∀ (locks : List (Option (List Nat))) (s : LoopState),
      (∀ b, some b ∈ locks → b.length = 4 * m) → s.points.length ≤ m →
      ∃ s1, mainLoop pass locks s = some s1 := by
  intro locks
  induction locks with
  | nil => intro s _ _; exact ⟨s, rfl⟩
  | cons locked more ih =>
    intro s hb hp
    have hmore : ∀ b, some b ∈ more → b.length = 4 * m :=
      fun b hb1 => hb b (List.mem_cons_of_mem _ hb1)
    cases locked with
    | none =>
      obtain ⟨s1, h1⟩ := ih { points := s.points, trace := s.trace ++ [Event.sleep_ms 1] } hmore hp
      exact ⟨s1, by simpa [mainLoop, loopBody] using h1⟩
    | some buf =>
      have hbuf : buf.length = 4 * m := hb buf (List.mem_cons_self _ _)
      obtain ⟨conv, _, h2, h3⟩ := loopBody_locked pass buf s (by omega)
      have hle : (pass conv).length ≤ m := by
        have := (hpass conv).length_le
        omega
      obtain ⟨s1, h1⟩ := ih
        { points := pass conv,
          trace := s.trace ++ [Event.updatePointCloud (pass conv), Event.spinOnce 10] } hmore hle
      exact ⟨s1, by simpa [mainLoop, h3] using h1⟩

/-- Claim C10: starting from a cloud of `640 * 360` points, with frame buffers of
`4 * 640 * 360` floats and a filter that keeps a sub-sequence of the points,
every run of locked iterations goes through without a read outside the
buffer; from one iteration to the next the number of points never increases
and it never exceeds `640 * 360`, so the indices `4i .. 4i + 3` read for the
points `i` of any of these clouds are within the buffer. -/
theorem lockedRun_never_grows (pass : List PointXYZRGB → List PointXYZRGB)
    (hpass : ∀ c, (pass c).Sublist c) (bufs : List (List Nat)) (points : List PointXYZRGB)
    (hbufs : ∀ b ∈ bufs, b.length = 4 * cloud_res_area) (hpoints : points.length = cloud_res_area) :
    ∃ clouds, lockedRun pass bufs points = some clouds ∧ clouds.length = bufs.length ∧
      List.Chain (fun before after => after.length ≤ before.length) points clouds ∧
      (∀ c ∈ clouds, c.length ≤ cloud_res_area) ∧
      ∀ c ∈ points :: clouds, ∀ i, i < c.length → ∀ b ∈ bufs, 4 * i + 3 < b.length := by
  obtain ⟨clouds, h1, h2, h3, h4⟩ :=
    lockedRun_bounded pass hpass cloud_res_area bufs points hbufs (by omega)
  refine ⟨clouds, h1, h2, h3, h4, ?_⟩
  intro c hc i hi b hb
  have hbl := hbufs b hb
  have hcl : c.length ≤ cloud_res_area := by
    rcases List.mem_cons.mp hc with rfl | hc1
    · omega
    · exact h4 c hc1
  omega

/-- Witness of C10: two frames of zeros, the default filter bounds, the full
cloud. -/
theorem lockedRun_never_grows_witness :
    (∀ c, (passThroughX (-300) 300 c).Sublist c) ∧
    (∀ b ∈ [List.replicate (4 * cloud_res_area) 0, List.replicate (4 * cloud_res_area) 0],
      b.length = 4 * cloud_res_area) ∧
    (List.replicate cloud_res_area (PointXYZRGB.mk 0 0 0 0)).length = cloud_res_area ∧
    ∃ clouds,
      lockedRun (passThroughX (-300) 300)
        [List.replicate (4 * cloud_res_area) 0, List.replicate (4 * cloud_res_area) 0]
        (List.replicate cloud_res_area (PointXYZRGB.mk 0 0 0 0)) = some clouds ∧
      clouds.length =
        [List.replicate (4 * cloud_res_area) 0, List.replicate (4 * cloud_res_area) 0].length ∧
      List.Chain (fun before after => after.length ≤ before.length)
        (List.replicate cloud_res_area (PointXYZRGB.mk 0 0 0 0)) clouds ∧
      (∀ c ∈ clouds, c.length ≤ cloud_res_area) ∧
      ∀ c ∈ List.replicate cloud_res_area (PointXYZRGB.mk 0 0 0 0) :: clouds, ∀ i, i < c.length →
        ∀ b ∈ [List.replicate (4 * cloud_res_area) 0, List.replicate (4 * cloud_res_area) 0],
          4 * i + 3 < b.length :=
  have hb : ∀ b ∈ [List.replicate (4 * cloud_res_area) 0, List.replicate (4 * cloud_res_area) 0],
      b.length = 4 * cloud_res_area := by
    intro b hb
    simp only [List.mem_cons, List.mem_singleton, List.not_mem_nil, or_false, or_self] at hb
    rw [hb]; exact List.length_replicate _ _
  ⟨passThroughX_sublist (-300) 300, hb, List.length_replicate _ _,
    lockedRun_never_grows (passThroughX (-300) 300) (passThroughX_sublist (-300) 300) _ _ hb
      (List.length_replicate _ _)⟩

/-! ## The entry point -/

/-- Claim C5, counterexample: with `argc = 3`, which is none of the three documented
forms, the program calls `zed.open` and returns 1 when the open fails and 0
when it succeeds and the viewer is stopped at once; it does not return -1. -/
theorem main_three_args_opens_camera :
    main (fun _ => 0) false { x := 0, y := 0, z := 0, rgb := 0 } [] 3 ["prog", "a.svo", "1"]
      = some { exitCode := 1, cameraOpened := true, trace := [] } ∧
    main (fun _ => 0) true { x := 0, y := 0, z := 0, rgb := 0 } [] 3 ["prog", "a.svo", "1"]
      = some { exitCode := 0, cameraOpened := true, trace := [] } := by
  constructor <;> simp [main, mainLoop]

/-- Claim C5, amended: the program returns -1, without calling `zed.open`, exactly
when `argc > 4`. For every `argc ≤ 4` (the three documented forms and any
other count, such as 3, which runs as the live camera) it calls `zed.open` and
returns 1 when the open fails and 0 once the viewer is stopped. -/
theorem main_exit_code (atof : String → ℚ) (openOk : Bool) (pointInit : PointXYZRGB)
    (locks : List (Option (List Nat))) (argc : Int) (argv : List String)
    (hlocks : ∀ b, some b ∈ locks → b.length = 4 * cloud_res_area) :
    ∃ out, main atof openOk pointInit locks argc argv = some out ∧
      out.exitCode = (if argc > 4 then -1 else if openOk then 0 else 1) ∧
      out.cameraOpened = decide (argc ≤ 4) ∧
      (out.exitCode = -1 ↔ argc > 4) := by
  by_cases h4 : argc > 4
  · refine ⟨{ exitCode := -1, cameraOpened := false, trace := [] }, by simp [main, h4], by simp [h4],
      ?_, by simp [h4]⟩
    simp only [Bool.false_eq, decide_eq_false_iff_not]
    omega
  · cases openOk with
    | false =>
      refine ⟨{ exitCode := 1, cameraOpened := true, trace := [] }, by simp [main, h4], by simp [h4],
        ?_, by simp [h4]⟩
      simp only [Bool.true_eq, decide_eq_true_eq]
      omega
    | true =>
      obtain ⟨s1, hs1⟩ := mainLoop_total
        (passThroughX (parseArgs atof argc argv).x_min (parseArgs atof argc argv).x_max)
        (passThroughX_sublist _ _) cloud_res_area locks
        { points := List.replicate cloud_res_area pointInit, trace := [] } hlocks
        (Nat.le_of_eq (List.length_replicate _ _))
      refine ⟨{ exitCode := 0, cameraOpened := true, trace := s1.trace }, by simp [main, h4, hs1],
        by simp [h4], ?_, by simp [h4]⟩
      simp only [Bool.true_eq, decide_eq_true_eq]
      omega

/-- Witness of the amended C5: `prog a.svo 1 2` with a camera that opens and
two iterations, the first with the lock, the second without. -/
theorem main_exit_code_witness :
    (∀ b, some b ∈ [some (List.replicate (4 * cloud_res_area) 0), none] →
      b.length = 4 * cloud_res_area) ∧
    ∃ out, main (fun _ => 0) true (PointXYZRGB.mk 0 0 0 0)
        [some (List.replicate (4 * cloud_res_area) 0), none] 4 ["prog", "a.svo", "1", "2"] = some out ∧
      out.exitCode = (if (4 : Int) > 4 then -1 else if true then 0 else 1) ∧
      out.cameraOpened = decide ((4 : Int) ≤ 4) ∧
      (out.exitCode = -1 ↔ (4 : Int) > 4) :=
  have hb : ∀ b, some b ∈ [some (List.replicate (4 * cloud_res_area) 0), none] →
      b.length = 4 * cloud_res_area := by
    intro b hb
    simp only [List.mem_cons, Option.some.injEq, List.mem_singleton, List.not_mem_nil,
      or_false, reduceCtorEq] at hb
    rw [hb]; exact List.length_replicate _ _
  ⟨hb, main_exit_code _ _ _ _ _ _ hb⟩

/-! ## Mutual exclusion on the frame buffer -/

theorem lockInv_init : LockInv Sys.init := by
  simp [LockInv, Sys.init]

theorem lockInv_stepMain (s s1 : Sys) (c : Bool) (h : LockInv s) (hs : stepMain s c = some s1) :
    LockInv s1 := by
  obtain ⟨m, st, hd, mpc, rpc⟩ := s
  cases mpc <;> simp only [stepMain] at hs
  all_goals (try split at hs)
  all_goals (cases hs)
  all_goals (simp only [LockInv] at h ⊢)
  all_goals (cases rpc <;> rcases m with _ | _ | _ <;> simp_all)

theorem lockInv_stepRun (s s1 : Sys) (c : Bool) (h : LockInv s) (hs : stepRun s c = some s1) :
    LockInv s1 := by
  obtain ⟨m, st, hd, mpc, rpc⟩ := s
  cases rpc <;> simp only [stepRun] at hs
  all_goals (try split at hs)
  all_goals (cases hs)
  all_goals (simp only [LockInv] at h ⊢)
  all_goals (cases mpc <;> rcases m with _ | _ | _ <;> simp_all)

theorem lockInv_sched (s : Sys) (tc : Tid × Bool) (h : LockInv s) : LockInv (sched s tc) := by
  obtain ⟨t, c⟩ := tc
  cases t
  · simp only [sched]
    cases hs : stepMain s c with
    | none => simpa using h
    | some s1 => simpa using lockInv_stepMain s s1 c h hs
  · simp only [sched]
    cases hs : stepRun s c with
    | none => simpa using h
    | some s1 => simpa using lockInv_stepRun s s1 c h hs

theorem lockInv_exec (interleaving : List (Tid × Bool)) :
    ∀ s, LockInv s → LockInv (exec s interleaving) := by
  induction interleaving with
  | nil => intro s h; exact h
  | cons tc more ih => intro s h; exact ih (sched s tc) (lockInv_sched s tc h)

theorem exec_reaches_write :
    (exec Sys.init [(Tid.mainThread, true), (Tid.mainThread, true), (Tid.runThread, true),
        (Tid.runThread, true), (Tid.runThread, true)]).runPc = RunPc.retrieve ∧
    (exec Sys.init [(Tid.mainThread, true), (Tid.mainThread, true), (Tid.runThread, true),
        (Tid.runThread, true), (Tid.runThread, true)]).mutex_input = some Tid.runThread := by
  decide

theorem exec_reaches_read :
    (exec Sys.init [(Tid.mainThread, true), (Tid.mainThread, true), (Tid.runThread, true),
        (Tid.runThread, true), (Tid.runThread, true), (Tid.runThread, true), (Tid.runThread, true),
        (Tid.runThread, true), (Tid.mainThread, true), (Tid.mainThread, false),
        (Tid.mainThread, true)]).mainPc = MainPc.convert ∧
    (exec Sys.init [(Tid.mainThread, true), (Tid.mainThread, true), (Tid.runThread, true),
        (Tid.runThread, true), (Tid.runThread, true), (Tid.runThread, true), (Tid.runThread, true),
        (Tid.runThread, true), (Tid.mainThread, true), (Tid.mainThread, false),
        (Tid.mainThread, true)]).mutex_input = some Tid.mainThread := by
  decide

theorem try_lock_fails_while_run_writes :
    (exec Sys.init [(Tid.mainThread, true), (Tid.mainThread, true), (Tid.runThread, true),
        (Tid.runThread, true), (Tid.runThread, true), (Tid.runThread, true), (Tid.runThread, true),
        (Tid.runThread, true), (Tid.mainThread, true), (Tid.mainThread, false),
        (Tid.runThread, true), (Tid.runThread, true), (Tid.runThread, true),
        (Tid.mainThread, true)]).mainPc = MainPc.sleepMs ∧
    (exec Sys.init [(Tid.mainThread, true), (Tid.mainThread, true), (Tid.runThread, true),
        (Tid.runThread, true), (Tid.runThread, true), (Tid.runThread, true), (Tid.runThread, true),
        (Tid.runThread, true), (Tid.mainThread, true), (Tid.mainThread, false),
        (Tid.runThread, true), (Tid.runThread, true), (Tid.runThread, true),
        (Tid.mainThread, true)]).runPc = RunPc.retrieve := by
  decide

/-- Claim C8: in every interleaving of the main thread and the acquisition thread,
`data_cloud` is written only by `run`, and only while `run` owns
`mutex_input`; it is read only by the main thread, and only while the main
thread owns `mutex_input`; so no state has a write and a read of the buffer in
progress together. -/
theorem data_cloud_mutual_exclusion (interleaving : List (Tid × Bool)) :
    (∀ pc, mainAccess pc ≠ some Access.write) ∧
    (∀ pc, runAccess pc ≠ some Access.read) ∧
    (runAccess (exec Sys.init interleaving).runPc = some Access.write →
      (exec Sys.init interleaving).mutex_input = some Tid.runThread) ∧
    (mainAccess (exec Sys.init interleaving).mainPc = some Access.read →
      (exec Sys.init interleaving).mutex_input = some Tid.mainThread) ∧
    ¬ (runAccess (exec Sys.init interleaving).runPc = some Access.write ∧
        mainAccess (exec Sys.init interleaving).mainPc = some Access.read) := by
  have hinv := lockInv_exec interleaving Sys.init lockInv_init
  generalize exec Sys.init interleaving = s at hinv
  obtain ⟨h1, h2, _⟩ := hinv
  have hw : runAccess s.runPc = some Access.write → s.mutex_input = some Tid.runThread := by
    intro h
    apply h1.mpr
    cases hpc : s.runPc <;> simp [hpc, runAccess] at h ⊢
  have hr : mainAccess s.mainPc = some Access.read → s.mutex_input = some Tid.mainThread := by
    intro h
    apply h2.mpr
    cases hpc : s.mainPc <;> simp [hpc, mainAccess] at h ⊢
  refine ⟨?_, ?_, hw, hr, ?_⟩
  · intro pc; cases pc <;> simp [mainAccess]
  · intro pc; cases pc <;> simp [runAccess]
  · rintro ⟨ha, hb⟩
    have := hw ha
    rw [hr hb] at this
    exact absurd this (by decide)

end ZedPcl
